import Mathlib

/-!
Shallow embedding of `src/kucoin_solayer_feed.py` (the repository's single
source file), in its default configuration `ENDPOINT = "futures"` (the
`ENDPOINT` environment variable is unset by default, and the spot branch
differs only in column order, per-request row cap and statically-null macro
fields).  Python floats are modelled as an inductive with explicit NaN and
±Infinity constructors over exact rationals; network effects are modelled as
explicit oracles (one outcome per request) threaded through the functions that
perform them, and the `while` loop in `fetch_frame` is modelled with a fuel
parameter that is always sufficient (each iteration either breaks or adds at
least one row, so the loop runs at most `need` times; we pass `need + 1`).
-/

/-- A Python float value: an exact rational, NaN, or ±Infinity. -/
inductive F where
  | num (q : ℚ)
  | nan
  | inf
  | ninf
deriving DecidableEq, Repr

/-- One raw candle row after per-provider column normalisation in
`fetch_frame` (futures branch: columns `ts, open, close, high, low, vol`).
`o c h lo v` stand for open, close, high, low, volume. -/
structure Row where
  ts : Int
  o : F
  c : F
  h : F
  lo : F
  v : F
deriving DecidableEq, Repr

/-- A Python value as it appears in the JSON payload: `None`, ints, floats
(including NaN/±Infinity), strings, lists and dicts. -/
inductive Val where
  | null
  | int (n : Int)
  | num (q : ℚ)
  | nan
  | inf
  | ninf
  | str (s : String)
  | arr (xs : List Val)
  | dict (fs : List (String × Val))

/-- `_clean` from the source: `None` stays `None`; a float that is NaN or
±Infinity becomes `None`; every other value — including dicts and lists,
on which `math.isnan` raises a suppressed `TypeError` — is returned
unchanged. -/
def _clean : Val → Val
  | Val.nan => Val.null
  | Val.inf => Val.null
  | Val.ninf => Val.null
  | v => v

/-- Embed a Python float into `Val`. -/
def fVal : F → Val
  | F.num q => Val.num q
  | F.nan => Val.nan
  | F.inf => Val.inf
  | F.ninf => Val.ninf

mutual

/-- Does a value contain a bare NaN or ±Infinity anywhere (the condition under
which `json.dumps(..., allow_nan=False)` raises instead of emitting a
`NaN`/`Infinity` token)? -/
def hasBad : Val → Bool
  | Val.nan => true
  | Val.inf => true
  | Val.ninf => true
  | Val.arr xs => hasBadL xs
  | Val.dict fs => hasBadF fs
  | _ => false

/-- `hasBad` over the elements of a list value. -/
def hasBadL : List Val → Bool
  | [] => false
  | v :: vs => hasBad v || hasBadL vs

/-- `hasBad` over the fields of a dict value. -/
def hasBadF : List (String × Val) → Bool
  | [] => false
  | (_, v) :: fs => hasBad v || hasBadF fs

end

/-- `json.dumps(payload, allow_nan=False)` succeeds exactly when no bare
NaN/Infinity float remains anywhere in the payload; on success the emitted
text therefore contains no `NaN` or `Infinity` token. -/
def dumpsOk (v : Val) : Bool := !hasBad v

/-- A scalar payload value (not a nested dict or list). -/
def isScalar : Val → Bool
  | Val.arr _ => false
  | Val.dict _ => false
  | _ => true

/-- Is this value a Python/JSON string? -/
def isStr : Val → Bool
  | Val.str _ => true
  | _ => false

/-! ### Frame assembly (`fetch_frame`, lines 183–190)

`df.drop_duplicates("ts").sort_values("ts").reset_index(drop=True)` followed
by `df.tail(lookback)`.  `drop_duplicates` keeps the FIRST occurrence of each
timestamp (the pandas default); `sort_values` sorts ascending by `ts`
(timestamps are distinct after deduplication, so the sort result is the unique
sorted permutation and stability is irrelevant); `tail n` keeps the last `n`
rows. -/

/-- `drop_duplicates("ts")`: keep the first row carrying each timestamp,
scanning left to right; `seen` is the set of timestamps already kept. -/
def dropDupTs (seen : List Int) : List Row → List Row
  | [] => []
  | r :: rs =>
    if r.ts ∈ seen then dropDupTs seen rs
    else r :: dropDupTs (r.ts :: seen) rs

/-- Insert a row into a list sorted ascending by `ts`. -/
def insertTs (r : Row) : List Row → List Row
  | [] => [r]
  | s :: ss => if r.ts ≤ s.ts then r :: s :: ss else s :: insertTs r ss

/-- `sort_values("ts")`: sort ascending by timestamp. -/
def sortTs : List Row → List Row
  | [] => []
  | r :: rs => insertTs r (sortTs rs)

/-- Deduplicate by timestamp (keep first) then sort ascending. -/
def dedupSort (rows : List Row) : List Row := sortTs (dropDupTs [] rows)

/-- The assembly step of `fetch_frame`: deduplicate by timestamp, sort
ascending, and keep the last `lookback` rows (`df.tail(lookback)`). -/
def assemble (lookback : Nat) (rows : List Row) : List Row :=
  let s := dedupSort rows
  s.drop (s.length - lookback)

example : assemble 10 [⟨100, F.num 1, F.num 1, F.num 1, F.num 1, F.num 1⟩,
                       ⟨100, F.num 2, F.num 2, F.num 2, F.num 2, F.num 2⟩]
    = [⟨100, F.num 1, F.num 1, F.num 1, F.num 1, F.num 1⟩] := by decide

example : hasBad (Val.dict [("macd", Val.dict [("hist", Val.nan)])]) = true := by
  simp [hasBad, hasBadF]

/-! ### Pagination (`fetch_frame`, lines 140–190, futures branch) -/

/-- `WARMUP = 250`: extra bars fetched beyond the lookback. -/
def WARMUP : Nat := 250

/-- `MAX_LIMIT = 5000` (futures endpoint). -/
def MAX_LIMIT : Nat := 5000

/-- `MS_PER_BAR_MAP.get(tf, 60_000)`: bar duration in milliseconds. -/
def msPerBar (tf : String) : Int :=
  if tf = "1m" then 60000
  else if tf = "5m" then 300000
  else if tf = "15m" then 900000
  else if tf = "60" then 3600000
  else if tf = "240" then 14400000
  else if tf = "D" then 86400000
  else 60000

/-- The cursor update `end_ms = int(batch[-1][0]) - MS_PER_BAR_MAP.get(tf, 60_000)`
after a page: the timestamp of the LAST row of the batch minus one bar
duration (`none` when the batch is empty, in which case the loop breaks and
no update happens). -/
def nextCursor (tf : String) (batch : List Row) : Option Int :=
  match batch with
  | [] => none
  | b :: bs => some ((bs.getLastD b).ts - msPerBar tf)

/-- The `while len(raw) < need` pagination loop of `fetch_frame`.  `page c l`
is the oracle for one HTTP page request `_get(API_URL, {..., limit: l, to: c})["data"]`
(`Except.error` models the `RuntimeError` raised by `_get` after exhausting
its retries).  The loop breaks on an empty page, otherwise extends `raw` and
moves the cursor back.  `fuel` only bounds the recursion: each iteration
either stops or grows `raw` by at least one row, so with `fuel = need + 1`
the fuel never runs out. -/
def paginate (page : Int → Nat → Except String (List Row)) (tf : String)
    (need : Nat) : Nat → Int → List Row → Except String (List Row)
  | 0, _, raw => Except.ok raw
  | fuel + 1, endMs, raw =>
    if raw.length < need then
      match page endMs (min MAX_LIMIT (need - raw.length)) with
      | Except.error e => Except.error e
      | Except.ok [] => Except.ok raw
      | Except.ok (b :: bs) =>
        paginate page tf need fuel ((bs.getLastD b).ts - msPerBar tf)
          (raw ++ b :: bs)
    else Except.ok raw

/-- Result of `fetch_frame`: the assembled frame, and whether the
`"⚠️ fetched {len(raw)} < {need} bars"` warning was printed (the pipeline's
insufficient-history report). -/
structure FrameResult where
  frame : List Row
  warned : Bool
deriving Repr

/-- `fetch_frame(symbol, tf, lookback)`: paginate backward from `nowMs`
(`int(time.time() * 1000)`) until `lookback + WARMUP` rows are collected or a
page comes back empty, then deduplicate, sort and take the tail.  An HTTP
failure of any page request propagates (aborts). -/
def fetch_frame (page : Int → Nat → Except String (List Row)) (tf : String)
    (lookback : Nat) (nowMs : Int) : Except String FrameResult :=
  match paginate page tf (lookback + WARMUP) (lookback + WARMUP + 1) nowMs [] with
  | Except.error e => Except.error e
  | Except.ok raw =>
    Except.ok ⟨assemble lookback raw, decide (raw.length < lookback + WARMUP)⟩

/-! ### Indicators (`calc_indicators`, lines 195–235)

The numeric indicator values (`ta`/`pandas_ta` computations over the frame)
are taken as an oracle `rawInd` — a dict of raw values, possibly NaN and, for
`macd`/`bbands`, nested dicts — since every one of them is an `.iloc[-1]` of a
series of the frame's length.  What the source itself does, and what is
modelled, is: each `.iloc[-1]` raises `IndexError` when the frame is empty,
and otherwise the final dict comprehension applies `_clean` to each TOP-LEVEL
value. -/

/-- `calc_indicators(df)`: fails on an empty frame (`.iloc[-1]` of an empty
series raises `IndexError`); otherwise returns the raw indicator dict with
`_clean` applied to each top-level value
(`{k: _clean(v) for k, v in ind.items()}`). -/
def calc_indicators (rawInd : List (String × Val)) (df : List Row) :
    Except String (List (String × Val)) :=
  if df.isEmpty then Except.error "IndexError: single positional indexer is out-of-bounds"
  else Except.ok (rawInd.map fun kv => (kv.1, _clean kv.2))

/-! ### Macro data (futures endpoints, lines 240–287) -/

/-- Parsed `data` of the funding-rate endpoint (`res.get("fundingRate", 0)`:
the field may be absent). -/
structure FundingNow where
  fundingRate : Option ℚ
deriving Repr

/-- `get_funding(symbol)`: two `_get` calls (current + history); a failure of
either propagates.  On success: `current` from `fundingRate` (default 0),
`predicted` the first history entry (or `None`), `history_7d` the first 21
entries. -/
def get_funding (now : Except String FundingNow) (hist : Except String (List ℚ)) :
    Except String Val :=
  match now with
  | Except.error e => Except.error e
  | Except.ok n =>
    match hist with
    | Except.error e => Except.error e
    | Except.ok hs =>
      Except.ok (Val.dict
        [("current", Val.num (n.fundingRate.getD 0)),
         ("predicted", match hs.head? with
           | none => Val.null
           | some q => Val.num q),
         ("history_7d", Val.arr ((hs.take 21).map Val.num))])

/-- Parsed `data` of the open-interest endpoint (both fields read with
`res.get(key, 0)`, so absence defaults to 0). -/
structure OiResp where
  openInterest : Option ℚ
  openInterestValue24h : Option ℚ
deriving Repr

/-- Output of `get_open_interest`. -/
structure OiOut where
  value : ℚ
  change24hPct : Option ℚ
deriving Repr

/-- The computation of `get_open_interest(symbol)` on the fetched `data`:
`pct = ((oi_val - oi_24h) / oi_24h * 100) if oi_24h else None` — the division
is guarded by Python truthiness of `oi_24h` (zero, which is also the default
for an absent field, selects `None`). -/
def get_open_interest (r : OiResp) : OiOut :=
  let oiVal := r.openInterest.getD 0
  let oi24h := r.openInterestValue24h.getD 0
  ⟨oiVal, if oi24h = 0 then none else some ((oiVal - oi24h) / oi24h * 100)⟩

/-- Parsed `data` of the order-book endpoint: lists of `[price, qty]` levels;
`res.get("bids", [])` / `res.get("asks", [])` default to empty lists. -/
structure ObResp where
  bids : Option (List (ℚ × ℚ))
  asks : Option (List (ℚ × ℚ))
deriving Repr

/-- Output of `get_order_book_depth`. -/
structure ObOut where
  bidsQty : ℚ
  asksQty : ℚ
  imbalancePct : Option ℚ
  lastUpdated : Int
deriving Repr

/-- The computation of `get_order_book_depth(symbol, depth)` on the fetched
`data`: `imb = (bids - asks) / (bids + asks) * 100 if bids + asks else None` —
the division is guarded by Python truthiness of `bids + asks`. -/
def get_order_book_depth (r : ObResp) (nowMs : Int) : ObOut :=
  let bids := ((r.bids.getD []).map Prod.snd).sum
  let asks := ((r.asks.getD []).map Prod.snd).sum
  ⟨bids, asks,
   if bids + asks = 0 then none else some ((bids - asks) / (bids + asks) * 100),
   nowMs⟩

/-- Render `OiOut` as the payload value of `"open_interest"`. -/
def oiOutVal (o : OiOut) : Val :=
  Val.dict [("value", Val.num o.value),
            ("change_24h_pct", match o.change24hPct with
              | none => Val.null
              | some q => Val.num q)]

/-- Render `ObOut` as the payload value of `"order_book"`. -/
def obOutVal (o : ObOut) : Val :=
  Val.dict [("bids_qty", Val.num o.bidsQty),
            ("asks_qty", Val.num o.asksQty),
            ("imbalance_pct", match o.imbalancePct with
              | none => Val.null
              | some q => Val.num q),
            ("last_updated", Val.int o.lastUpdated)]

/-! ### `_iso` (lines 91–96)

`dt.datetime.utcfromtimestamp(ms / 1000).isoformat(timespec="seconds") + "Z"`:
epoch milliseconds to a `YYYY-MM-DDTHH:MM:SSZ` UTC string.  Modelled for
non-negative timestamps (the only ones the program produces) with the
standard civil-from-days calendar computation. -/

/-- Zero-pad a number to two digits. -/
def pad2 (n : Nat) : String :=
  if n < 10 then "0" ++ toString n else toString n

/-- Zero-pad a year to four digits. -/
def pad4 (n : Nat) : String :=
  if n < 10 then "000" ++ toString n
  else if n < 100 then "00" ++ toString n
  else if n < 1000 then "0" ++ toString n
  else toString n

/-- Gregorian date from days since 1970-01-01 (yields `(year, month, day)`). -/
def civilFromDays (days : Nat) : Nat × Nat × Nat :=
  let z := days + 719468
  let era := z / 146097
  let doe := z % 146097
  let yoe := (doe - doe / 1460 + doe / 36524 - doe / 146096) / 365
  let y := yoe + era * 400
  let doy := doe - (365 * yoe + yoe / 4 - yoe / 100)
  let mp := (5 * doy + 2) / 153
  let d := doy - (153 * mp + 2) / 5 + 1
  let m := if mp < 10 then mp + 3 else mp - 9
  (if m ≤ 2 then y + 1 else y, m, d)

/-- `_iso(ms)`: ISO-8601 UTC string `YYYY-MM-DDTHH:MM:SSZ` for an epoch
timestamp in milliseconds. -/
def _iso (ms : Int) : String :=
  let s := (ms / 1000).toNat
  let date := civilFromDays (s / 86400)
  let secs := s % 86400
  pad4 date.1 ++ "-" ++ pad2 date.2.1 ++ "-" ++ pad2 date.2.2 ++ "T" ++
    pad2 (secs / 3600) ++ ":" ++ pad2 (secs % 3600 / 60) ++ ":" ++
    pad2 (secs % 60) ++ "Z"

example : _iso 1700000000000 = "2023-11-14T22:13:20Z" := by decide

/-! ### `_get` (lines 108–128)

`_get(url, params, retries=3)`: up to 3 attempts; an attempt fails on a
network exception, on HTTP status 429 (explicitly raised) or on any non-2xx
status (`raise_for_status`); after each failure `_sleep_backoff(backoff)`
sleeps `backoff` seconds and doubles it (so the delays are 1, 2, 4); after
the loop a `RuntimeError("KuCoin API keeps failing: ...")` carrying the last
exception is raised. -/

/-- Outcome of one HTTP attempt inside `_get`: a 2xx response with decoded
JSON, a non-2xx status, or a network-level exception. -/
inductive HttpTry where
  | success (v : Val)
  | httpStatus (code : Nat)
  | netError (msg : String)

/-- Evaluate one attempt: 429 raises the rate-limit `RuntimeError`, other
non-2xx statuses raise via `raise_for_status`, network errors raise, 2xx
returns the JSON body. -/
def tryOutcome : HttpTry → Except String Val
  | HttpTry.success v => Except.ok v
  | HttpTry.httpStatus 429 => Except.error "Rate-limited by KuCoin (429)"
  | HttpTry.httpStatus n => Except.error ("HTTP error " ++ toString n)
  | HttpTry.netError m => Except.error m

/-- Result of `_get`: the value or the final error, the number of attempts
made, and the sequence of backoff sleeps performed (in seconds). -/
structure GetResult where
  result : Except String Val
  attempts : Nat
  sleeps : List ℚ

/-- The `for _ in range(retries)` loop of `_get`.  `oracle i` is the outcome
of the `i`-th attempt; `fuel` is the number of attempts left, `i` the index of
the next attempt, `b` the current backoff and `lastErr` the last recorded
exception. -/
def getAux (oracle : Nat → HttpTry) : Nat → Nat → ℚ → Option String → GetResult
  | 0, i, _, lastErr =>
    ⟨Except.error ("KuCoin API keeps failing: " ++ lastErr.getD "None"), i, []⟩
  | fuel + 1, i, b, _ =>
    match tryOutcome (oracle i) with
    | Except.ok v => ⟨Except.ok v, i + 1, []⟩
    | Except.error e =>
      let rest := getAux oracle fuel (i + 1) (2 * b) (some e)
      ⟨rest.result, rest.attempts, b :: rest.sleeps⟩

/-- `_get(url, params)` with the default `retries = 3` and initial backoff 1. -/
def _get (oracle : Nat → HttpTry) : GetResult := getAux oracle 3 0 1 none

/-! ### `main` (lines 308–342)

The run is modelled as a function of the configuration surface (the four
environment variables `main` reads) and a network oracle, returning the run's
outcome (`Except.error` = uncaught exception, `Except.ok payload` = the
published snapshot) together with the ordered trace of network interactions
actually issued. -/

/-- The environment variables read by `main`: `os.environ["GIST_ID"]` and
`os.environ["GIST_TOKEN"]` raise `KeyError` when absent; `SYMBOL` and
`FILE_NAME` have defaults. -/
structure Config where
  gistId : Option String
  gistToken : Option String
  symbolEnv : Option String
  fileEnv : Option String

/-- One network interaction issued by the run (coarse granularity: one entry
per collaborator call; a candle fetch covers all its page requests). -/
inductive Act where
  | candleFetch (tf : String)
  | btcFetch
  | fundingFetch
  | oiFetch
  | obFetch
  | push
deriving DecidableEq, Repr

/-- The network oracle for one run: page responses per timeframe, the raw
indicator values per timeframe (numeric results of `ta`/`pandas_ta`), the BTC
reference pages and correlation value, the three macro responses, and whether
the Gist PATCH returns 2xx. -/
structure Net where
  nowMs : Int
  page : String → Int → Nat → Except String (List Row)
  indRaw : String → List (String × Val)
  btcPage : Int → Nat → Except String (List Row)
  corrVal : Val
  fundingNow : Except String FundingNow
  fundingHist : Except String (List ℚ)
  oi : Except String OiResp
  ob : Except String ObResp
  pushOk : Bool

/-- `btc_correlation(df)`: fetches the BTC 1h frame and computes the Pearson
correlation; ANY exception is caught and turned into `None` (the only
isolated fetch in the program).  The numeric correlation on success is the
oracle `corrVal`. -/
def btc_correlation (btcPage : Int → Nat → Except String (List Row))
    (corrVal : Val) (nowMs : Int) : Val :=
  match fetch_frame btcPage "60" 720 nowMs with
  | Except.error _ => Val.null
  | Except.ok _ => corrVal

/-- One serialized candle record (lines 325–328): `ts` is emitted as
`int(v)`, every other column through `_clean`; the key order is
`ts, open, close, high, low, vol`. -/
def barFields (r : Row) : List (String × Val) :=
  [("ts", Val.int r.ts),
   ("open", _clean (fVal r.o)),
   ("close", _clean (fVal r.c)),
   ("high", _clean (fVal r.h)),
   ("low", _clean (fVal r.lo)),
   ("vol", _clean (fVal r.v))]

/-- One serialized candle record as a dict value. -/
def barRecord (r : Row) : Val := Val.dict (barFields r)

/-- Accumulator of the per-timeframe loop in `main`. -/
structure LoopAcc where
  candles : List (String × Val)
  inds : List (String × Val)
  btc : Option Val
  trace : List Act

/-- The final payload dict (in insertion order: the base keys created up
front, `btc_correlation_30d` inserted during the loop when present, then the
three macro keys appended at the end). -/
def buildPayload (nowMs : Int) (symbol : String) (candles inds : List (String × Val))
    (btc : Option Val) (fundingV : Val) (oiR : OiResp) (obR : ObResp) : Val :=
  Val.dict
    ([("generated_at", Val.str (_iso nowMs)),
      ("symbol", Val.str symbol),
      ("candles", Val.dict candles),
      ("indicators", Val.dict inds)]
     ++ (match btc with
         | none => []
         | some b => [("btc_correlation_30d", b)])
     ++ [("funding", fundingV),
         ("open_interest", oiOutVal (get_open_interest oiR)),
         ("order_book", obOutVal (get_order_book_depth obR nowMs))])

/-- The `for tf, lookback in TIMEFRAMES` loop of `main`: fetch the frame
(abort on candle-source failure), serialize its bars, compute indicators
(abort on their `IndexError`), and for `tf == "60"` compute the isolated BTC
correlation.  Returns the accumulator and `some error` if the iteration
raised. -/
def mainLoop (net : Net) : List (String × Nat) → LoopAcc → LoopAcc × Option String
  | [], acc => (acc, none)
  | (tf, lb) :: rest, acc =>
    let acc1 : LoopAcc := { acc with trace := acc.trace ++ [Act.candleFetch tf] }
    match fetch_frame (net.page tf) tf lb net.nowMs with
    | Except.error e => (acc1, some e)
    | Except.ok fr =>
      match calc_indicators (net.indRaw tf) fr.frame with
      | Except.error e => (acc1, some e)
      | Except.ok cleanInd =>
        let acc2 : LoopAcc := { acc1 with
          candles := acc1.candles ++
            [(tf, Val.dict [("lookback", Val.int (Int.ofNat lb)),
                            ("bars", Val.arr (fr.frame.map barRecord))])],
          inds := acc1.inds ++ [(tf, Val.dict cleanInd)] }
        if tf = "60" then
          mainLoop net rest { acc2 with
            trace := acc2.trace ++ [Act.btcFetch],
            btc := some (_clean (btc_correlation net.btcPage net.corrVal net.nowMs)) }
        else mainLoop net rest acc2

/-- `main()`: read the required configuration (aborting with a `KeyError`
diagnostic before any network call when `GIST_ID` or `GIST_TOKEN` is absent),
run the per-timeframe loop, fetch the three macro data blocks (each failure
propagates), and PATCH the payload to the Gist (non-2xx raises).  Returns the
outcome and the trace of network interactions. -/
def runMain (cfg : Config) (net : Net) (tfs : List (String × Nat)) :
    Except String Val × List Act :=
  match cfg.gistId with
  | none => (Except.error "KeyError: GIST_ID", [])
  | some _ =>
    match cfg.gistToken with
    | none => (Except.error "KeyError: GIST_TOKEN", [])
    | some _ =>
      let symbol := cfg.symbolEnv.getD "SOLAYERUSDTM"
      match mainLoop net tfs ⟨[], [], none, []⟩ with
      | (acc, some e) => (Except.error e, acc.trace)
      | (acc, none) =>
        let trace1 := acc.trace ++ [Act.fundingFetch]
        match get_funding net.fundingNow net.fundingHist with
        | Except.error e => (Except.error e, trace1)
        | Except.ok fundingV =>
          let trace2 := trace1 ++ [Act.oiFetch]
          match net.oi with
          | Except.error e => (Except.error e, trace2)
          | Except.ok oiR =>
            let trace3 := trace2 ++ [Act.obFetch]
            match net.ob with
            | Except.error e => (Except.error e, trace3)
            | Except.ok obR =>
              let trace4 := trace3 ++ [Act.push]
              if net.pushOk then
                (Except.ok (buildPayload net.nowMs symbol acc.candles acc.inds
                    acc.btc fundingV oiR obR), trace4)
              else (Except.error "push_gist: HTTPError", trace4)

/-! ### Lemmas about deduplication and sorting -/

/-- Timestamps already seen never reappear in the deduplicated output. -/
theorem mem_dropDupTs_not_seen {r : Row} :
    ∀ {rows : List Row} {seen : List Int}, r ∈ dropDupTs seen rows → r.ts ∉ seen := by
  intro rows
  induction rows with
  | nil => intro seen hm; simp [dropDupTs] at hm
  | cons x xs ih =>
    intro seen hm
    simp only [dropDupTs] at hm
    by_cases hx : x.ts ∈ seen
    · rw [if_pos hx] at hm
      exact ih hm
    · rw [if_neg hx] at hm
      rcases List.mem_cons.mp hm with h1 | h2
      · subst h1; exact hx
      · exact fun hs => ih h2 (List.mem_cons_of_mem _ hs)

/-- A timestamp in `seen` contributes no row to the deduplicated output. -/
theorem dropDupTs_countP_zero {t : Int} :
    ∀ {rows : List Row} {seen : List Int}, t ∈ seen →
      (dropDupTs seen rows).countP (fun r => r.ts == t) = 0 := by
  intro rows
  induction rows with
  | nil => intro seen _; simp [dropDupTs]
  | cons x xs ih =>
    intro seen ht
    simp only [dropDupTs]
    by_cases hx : x.ts ∈ seen
    · rw [if_pos hx]; exact ih ht
    · rw [if_neg hx, List.countP_cons]
      have hne : (x.ts == t) = false := by
        simp only [beq_eq_false_iff_ne]
        intro he; exact hx (he ▸ ht)
      rw [hne]
      simpa using ih (List.mem_cons_of_mem _ ht)

/-- A timestamp present in the input and not yet seen appears exactly once in
the deduplicated output. -/
theorem dropDupTs_countP_one {t : Int} :
    ∀ {rows : List Row} {seen : List Int}, t ∉ seen → (∃ r ∈ rows, r.ts = t) →
      (dropDupTs seen rows).countP (fun r => r.ts == t) = 1 := by
  intro rows
  induction rows with
  | nil =>
    rintro seen _ ⟨r, hr, _⟩
    simp at hr
  | cons x xs ih =>
    rintro seen ht ⟨r, hr, hrt⟩
    simp only [dropDupTs]
    by_cases hx : x.ts ∈ seen
    · rw [if_pos hx]
      refine ih ht ⟨r, ?_, hrt⟩
      rcases List.mem_cons.mp hr with h1 | h2
      · subst h1; exact absurd (hrt ▸ hx) ht
      · exact h2
    · rw [if_neg hx, List.countP_cons]
      by_cases hxt : x.ts = t
      · have hb : (x.ts == t) = true := beq_iff_eq.mpr hxt
        rw [hb, dropDupTs_countP_zero (hxt ▸ List.mem_cons_self x.ts seen)]
        simp
      · have hb : (x.ts == t) = false := beq_eq_false_iff_ne.mpr hxt
        rw [hb]
        have ht' : t ∉ x.ts :: seen := by
          intro hm
          rcases List.mem_cons.mp hm with h1 | h2
          · exact hxt h1.symm
          · exact ht h2
        have hr' : r ∈ xs := by
          rcases List.mem_cons.mp hr with h1 | h2
          · subst h1; exact absurd hrt hxt
          · exact h2
        simpa using ih ht' ⟨r, hr', hrt⟩

/-- Every row surviving deduplication is the FIRST occurrence of its
timestamp in the raw list. -/
theorem mem_dropDupTs_find {r' : Row} :
    ∀ {rows : List Row} {seen : List Int}, r' ∈ dropDupTs seen rows →
      rows.find? (fun x => x.ts == r'.ts) = some r' := by
  intro rows
  induction rows with
  | nil => intro seen hm; simp [dropDupTs] at hm
  | cons x xs ih =>
    intro seen hm
    simp only [dropDupTs] at hm
    by_cases hx : x.ts ∈ seen
    · rw [if_pos hx] at hm
      have h1 : r'.ts ∉ seen := mem_dropDupTs_not_seen hm
      have hne : (x.ts == r'.ts) = false := by
        simp only [beq_eq_false_iff_ne]
        intro he; exact h1 (he ▸ hx)
      simp only [List.find?, hne]
      exact ih hm
    · rw [if_neg hx] at hm
      rcases List.mem_cons.mp hm with h1 | h2
      · subst h1
        simp [List.find?]
      · have h1 : r'.ts ∉ x.ts :: seen := mem_dropDupTs_not_seen h2
        have hne : (x.ts == r'.ts) = false := by
          simp only [beq_eq_false_iff_ne]
          intro he
          exact h1 (he ▸ List.mem_cons_self x.ts seen)
        simp only [List.find?, hne]
        exact ih h2

/-- Ordered insertion is a permutation of consing. -/
theorem insertTs_perm (r : Row) (l : List Row) : (insertTs r l).Perm (r :: l) := by
  induction l with
  | nil => simp [insertTs]
  | cons s ss ih =>
    simp only [insertTs]
    by_cases hle : r.ts ≤ s.ts
    · rw [if_pos hle]
    · rw [if_neg hle]
      exact (List.Perm.cons s ih).trans (List.Perm.swap r s ss)

/-- `sortTs` permutes its input. -/
theorem sortTs_perm (l : List Row) : (sortTs l).Perm l := by
  induction l with
  | nil => simp [sortTs]
  | cons r rs ih => exact (insertTs_perm r (sortTs rs)).trans (ih.cons r)

/-- The timestamps accumulated after deduplicating a whole list. -/
def postSeen (seen : List Int) : List Row → List Int
  | [] => seen
  | r :: rs => if r.ts ∈ seen then postSeen seen rs else postSeen (r.ts :: seen) rs

/-- Deduplication distributes over append, the right part deduplicated
against all timestamps of the left part. -/
theorem dropDupTs_append (xs : List Row) :
    ∀ (seen : List Int) (ys : List Row),
      dropDupTs seen (xs ++ ys) = dropDupTs seen xs ++ dropDupTs (postSeen seen xs) ys := by
  induction xs with
  | nil => intro seen ys; simp [dropDupTs, postSeen]
  | cons x xs ih =>
    intro seen ys
    simp only [List.cons_append, dropDupTs, postSeen]
    by_cases hx : x.ts ∈ seen
    · rw [if_pos hx, if_pos hx, if_pos hx]
      exact ih seen ys
    · rw [if_neg hx, if_neg hx, if_neg hx]
      simp [ih (x.ts :: seen) ys]

/-- `postSeen` only grows the seen set. -/
theorem mem_postSeen {t : Int} :
    ∀ {xs : List Row} {seen : List Int}, t ∈ seen → t ∈ postSeen seen xs := by
  intro xs
  induction xs with
  | nil => intro seen ht; simpa [postSeen] using ht
  | cons x xs ih =>
    intro seen ht
    simp only [postSeen]
    by_cases hx : x.ts ∈ seen
    · rw [if_pos hx]; exact ih ht
    · rw [if_neg hx]; exact ih (List.mem_cons_of_mem _ ht)

/-- After deduplicating `xs`, every timestamp of `xs` is in the seen set. -/
theorem ts_mem_postSeen {r : Row} :
    ∀ {xs : List Row} {seen : List Int}, r ∈ xs → r.ts ∈ postSeen seen xs := by
  intro xs
  induction xs with
  | nil => intro seen hm; simp at hm
  | cons x xs ih =>
    intro seen hm
    simp only [postSeen]
    rcases List.mem_cons.mp hm with h1 | h2
    · subst h1
      by_cases hx : r.ts ∈ seen
      · rw [if_pos hx]; exact mem_postSeen hx
      · rw [if_neg hx]; exact mem_postSeen (List.mem_cons_self _ _)
    · by_cases hx : x.ts ∈ seen
      · rw [if_pos hx]; exact ih h2
      · rw [if_neg hx]; exact ih h2

/-- Deduplicating a list all of whose timestamps are already seen gives `[]`. -/
theorem dropDupTs_eq_nil :
    ∀ {ys : List Row} {seen : List Int}, (∀ r ∈ ys, r.ts ∈ seen) → dropDupTs seen ys = [] := by
  intro ys
  induction ys with
  | nil => intro seen _; simp [dropDupTs]
  | cons y ys ih =>
    intro seen hall
    simp only [dropDupTs]
    rw [if_pos (hall y (List.mem_cons_self _ _))]
    exact ih fun r hr => hall r (List.mem_cons_of_mem _ hr)

/-! ### Claim C2 -/

/-- Two raw rows sharing timestamp 100 with different values (used for C2). -/
def rowDupA : Row := ⟨100, F.num 1, F.num 1, F.num 1, F.num 1, F.num 1⟩

/-- The later-fetched row with the same timestamp but different values. -/
def rowDupB : Row := ⟨100, F.num 2, F.num 2, F.num 2, F.num 2, F.num 2⟩

/-- C2, counterexample: with two same-timestamp rows in fetch order
`[rowDupA, rowDupB]`, the assembled Series keeps the EARLIER-fetched row
`rowDupA`, not the later-fetched `rowDupB` as the claim states —
`drop_duplicates("ts")` keeps the first occurrence (the pandas default). -/
theorem C2_cex :
    assemble 10 [rowDupA, rowDupB] = [rowDupA] ∧ rowDupA.ts = rowDupB.ts ∧
      rowDupA ≠ rowDupB := by decide

/-- C2 (amended): for every raw row list containing a row with timestamp `t`,
the deduplicated and sorted frame contains exactly one row with timestamp
`t`; the assembled Series (its tail window) contains at most one such row,
and any such surviving row is the FIRST-occurring (earlier-fetched) row with
that timestamp in the raw list. -/
theorem C2_assemble_dedupes_keep_first (rows : List Row) (lookback : Nat) (t : Int)
    (hpresent : ∃ r ∈ rows, r.ts = t) :
    (dedupSort rows).countP (fun r => r.ts == t) = 1 ∧
    (assemble lookback rows).countP (fun r => r.ts == t) ≤ 1 ∧
    ∀ r' ∈ assemble lookback rows, r'.ts = t →
      rows.find? (fun x => x.ts == t) = some r' := by
  have h1 : (dropDupTs [] rows).countP (fun r => r.ts == t) = 1 :=
    dropDupTs_countP_one (by simp) hpresent
  have hcount : (dedupSort rows).countP (fun r => r.ts == t) = 1 := by
    rw [dedupSort, (sortTs_perm (dropDupTs [] rows)).countP_eq]
    exact h1
  have hsub : (assemble lookback rows).Sublist (dedupSort rows) := by
    simp only [assemble]
    exact List.drop_sublist _ _
  refine ⟨hcount, ?_, ?_⟩
  · exact le_trans (hsub.countP_le _) (le_of_eq hcount)
  · intro r' hr' hrt
    have hmem2 : r' ∈ dropDupTs [] rows :=
      (sortTs_perm (dropDupTs [] rows)).mem_iff.mp (hsub.subset hr')
    have hfind := mem_dropDupTs_find hmem2
    rw [← hrt]
    exact hfind

/-- C2, witness: the amended theorem applied to the concrete duplicate pair. -/
theorem C2_witness :
    (∃ r ∈ [rowDupA, rowDupB], r.ts = 100) ∧
    (dedupSort [rowDupA, rowDupB]).countP (fun r => r.ts == 100) = 1 ∧
    (assemble 10 [rowDupA, rowDupB]).countP (fun r => r.ts == 100) ≤ 1 ∧
    (∀ r' ∈ assemble 10 [rowDupA, rowDupB], r'.ts = 100 →
      [rowDupA, rowDupB].find? (fun x => x.ts == 100) = some r') :=
  ⟨⟨rowDupA, by decide⟩,
   C2_assemble_dedupes_keep_first [rowDupA, rowDupB] 10 100 ⟨rowDupA, by decide⟩⟩

/-! ### Claim C5 -/

/-- C5: the assembly step (dedupe by timestamp, sort ascending, take the tail
window) is idempotent in the claimed sense: assembling a raw list
concatenated with itself yields the same Series as assembling it once (and
`assemble` is a pure function, so assembling the same raw rows twice yields
the same Series by definitional equality). -/
theorem C5_assemble_idempotent (lookback : Nat) (rows : List Row) :
    assemble lookback (rows ++ rows) = assemble lookback rows := by
  have hd : dropDupTs [] (rows ++ rows) = dropDupTs [] rows := by
    rw [dropDupTs_append rows [] rows,
        dropDupTs_eq_nil fun r hr => ts_mem_postSeen hr]
    simp
  simp only [assemble, dedupSort, hd]

/-! ### Claim C8 -/

/-- Every bar duration in the map (and the default) is positive. -/
theorem msPerBar_pos (tf : String) : 0 < msPerBar tf := by
  unfold msPerBar
  repeat' split
  all_goals decide

/-- The `getLastD` element of a cons cell is a member of it. -/
theorem getLastD_mem_cons (b : Row) (bs : List Row) : bs.getLastD b ∈ b :: bs := by
  induction bs generalizing b with
  | nil => simp [List.getLastD]
  | cons c cs ih =>
    rw [List.getLastD_cons]
    exact List.mem_cons_of_mem b (ih c)

/-- In a page sorted descending by timestamp (newest first), the last row has
the minimal timestamp. -/
theorem getLastD_ts_min {b : Row} {bs : List Row}
    (hd : (b :: bs).Pairwise fun a c => c.ts ≤ a.ts) :
    ∀ r ∈ b :: bs, (bs.getLastD b).ts ≤ r.ts := by
  induction bs generalizing b with
  | nil =>
    intro r hr
    simp only [List.mem_singleton] at hr
    subst hr
    simp [List.getLastD]
  | cons c cs ih =>
    intro r hr
    rw [List.getLastD_cons]
    rcases List.mem_cons.mp hr with h1 | h2
    · subst h1
      exact (List.pairwise_cons.mp hd).1 _ (getLastD_mem_cons c cs)
    · exact ih (List.pairwise_cons.mp hd).2 r h2

/-- C8, counterexample: a non-empty page whose rows are in ASCENDING
timestamp order.  The code sets the cursor from the page's LAST row
(`batch[-1][0]`), which here is the newest row, so the cursor is NOT the
oldest timestamp in the page minus one bar duration as the claim states. -/
theorem C8_cex :
    ((⟨120000, F.num 1, F.num 1, F.num 1, F.num 1, F.num 1⟩ : Row) ∈
        [(⟨120000, F.num 1, F.num 1, F.num 1, F.num 1, F.num 1⟩ : Row),
         ⟨180000, F.num 1, F.num 1, F.num 1, F.num 1, F.num 1⟩] ∧
      ∀ r ∈ [(⟨120000, F.num 1, F.num 1, F.num 1, F.num 1, F.num 1⟩ : Row),
             ⟨180000, F.num 1, F.num 1, F.num 1, F.num 1, F.num 1⟩],
        (120000 : Int) ≤ r.ts) ∧
    nextCursor "1m"
        [⟨120000, F.num 1, F.num 1, F.num 1, F.num 1, F.num 1⟩,
         ⟨180000, F.num 1, F.num 1, F.num 1, F.num 1, F.num 1⟩]
      ≠ some (120000 - msPerBar "1m") := by decide

/-- C8 (amended): the cursor after a non-empty page is the LAST row's
timestamp minus one bar duration; when the page is sorted descending by
timestamp (newest first), that last row is the oldest row of the page, the
cursor equals the oldest timestamp minus one bar duration, and every row of
the page has a timestamp strictly greater than the cursor — so a subsequent
request bounded above by the cursor cannot return the boundary row again. -/
theorem C8_cursor_from_last_row (tf : String) (b : Row) (bs : List Row)
    (hd : (b :: bs).Pairwise fun a c => c.ts ≤ a.ts) :
    ∃ rmin, rmin ∈ b :: bs ∧ (∀ r ∈ b :: bs, rmin.ts ≤ r.ts) ∧
      nextCursor tf (b :: bs) = some (rmin.ts - msPerBar tf) ∧
      ∀ r ∈ b :: bs, rmin.ts - msPerBar tf < r.ts := by
  refine ⟨bs.getLastD b, getLastD_mem_cons b bs, getLastD_ts_min hd, rfl, ?_⟩
  intro r hr
  have h1 := getLastD_ts_min hd r hr
  have h2 := msPerBar_pos tf
  omega

/-- C8, witness: the amended theorem applied to a concrete descending page. -/
theorem C8_witness :
    ∃ rmin,
      rmin ∈ [(⟨180000, F.num 1, F.num 1, F.num 1, F.num 1, F.num 1⟩ : Row),
              ⟨120000, F.num 1, F.num 1, F.num 1, F.num 1, F.num 1⟩] ∧
      (∀ r ∈ [(⟨180000, F.num 1, F.num 1, F.num 1, F.num 1, F.num 1⟩ : Row),
              ⟨120000, F.num 1, F.num 1, F.num 1, F.num 1, F.num 1⟩], rmin.ts ≤ r.ts) ∧
      nextCursor "1m"
          [⟨180000, F.num 1, F.num 1, F.num 1, F.num 1, F.num 1⟩,
           ⟨120000, F.num 1, F.num 1, F.num 1, F.num 1, F.num 1⟩]
        = some (rmin.ts - msPerBar "1m") ∧
      ∀ r ∈ [(⟨180000, F.num 1, F.num 1, F.num 1, F.num 1, F.num 1⟩ : Row),
             ⟨120000, F.num 1, F.num 1, F.num 1, F.num 1, F.num 1⟩],
        rmin.ts - msPerBar "1m" < r.ts :=
  C8_cursor_from_last_row "1m" _ _ (by decide)

/-! ### Claim C10 -/

/-- C10: both macro-data divisions are guarded.  `change_24h_pct` is `None`
whenever the 24h reference value is zero or absent (absence defaults to 0 via
`res.get(..., 0)`, and Python truthiness of `oi_24h` guards the division);
`imbalance_pct` is `None` whenever the total bid plus ask quantity is zero
(Python truthiness of `bids + asks` guards the division).  So no macro
computation divides by zero. -/
theorem C10_macro_division_guards :
    (∀ r : OiResp,
      r.openInterestValue24h = none ∨ r.openInterestValue24h = some 0 →
        (get_open_interest r).change24hPct = none) ∧
    (∀ (r : ObResp) (nowMs : Int),
      ((r.bids.getD []).map Prod.snd).sum + ((r.asks.getD []).map Prod.snd).sum = 0 →
        (get_order_book_depth r nowMs).imbalancePct = none) := by
  constructor
  · rintro r (hy | hy) <;> simp [get_open_interest, hy]
  · intro r nowMs hy
    simp [get_order_book_depth, hy]

/-- C10, witness: the guards at concrete inputs — an absent 24h reference,
and an order book whose bid and ask quantities sum to zero. -/
theorem C10_witness :
    (get_open_interest ⟨some 5, none⟩).change24hPct = none ∧
    (get_order_book_depth ⟨some [(1, 2)], some [(3, -2)]⟩ 0).imbalancePct = none :=
  ⟨C10_macro_division_guards.1 ⟨some 5, none⟩ (Or.inl rfl),
   C10_macro_division_guards.2 ⟨some [(1, 2)], some [(3, -2)]⟩ 0
     (by norm_num [List.sum_cons, List.sum_nil])⟩

/-! ### Lemmas about the pagination loop and the main loop -/

/-- If every page request fails, the pagination loop fails on its first
request. -/
theorem paginate_error {page : Int → Nat → Except String (List Row)} {tf : String}
    {need fuel : Nat} {endMs : Int} {raw : List Row} {em : String}
    (hp : ∀ c l, page c l = Except.error em)
    (hlen : raw.length < need) (hfuel : 0 < fuel) :
    paginate page tf need fuel endMs raw = Except.error em := by
  cases fuel with
  | zero => exact absurd hfuel (by simp)
  | succ f =>
    simp only [paginate]
    rw [if_pos hlen, hp]

/-- If every page request for a timeframe fails, `fetch_frame` fails with the
same error. -/
theorem fetch_frame_page_error {page : Int → Nat → Except String (List Row)}
    {tf : String} {lb : Nat} {nowMs : Int} {em : String}
    (hp : ∀ c l, page c l = Except.error em) :
    fetch_frame page tf lb nowMs = Except.error em := by
  unfold fetch_frame
  rw [paginate_error hp (by simp [WARMUP]) (Nat.succ_pos _)]

/-- The per-timeframe loop never performs the Gist PATCH: `Act.push` never
enters its trace. -/
theorem mainLoop_no_push (net : Net) :
    ∀ (tfs : List (String × Nat)) (acc : LoopAcc),
      Act.push ∉ acc.trace → Act.push ∉ (mainLoop net tfs acc).1.trace := by
  intro tfs
  induction tfs with
  | nil => intro acc hin; simpa [mainLoop] using hin
  | cons p rest ih =>
    obtain ⟨tf, lb⟩ := p
    intro acc hin
    simp only [mainLoop]
    split
    · simpa using fun hmem => absurd hmem (by simp [hin])
    · split
      · simpa using fun hmem => absurd hmem (by simp [hin])
      · split
        · exact ih _ (by simp [hin])
        · exact ih _ (by simp [hin])

/-- If some listed timeframe has an always-failing candle page oracle, the
per-timeframe loop aborts with an error. -/
theorem mainLoop_fail {net : Net} {tf : String} {lb : Nat} {em : String}
    (hp : ∀ c l, net.page tf c l = Except.error em) :
    ∀ (tfs : List (String × Nat)) (acc : LoopAcc), (tf, lb) ∈ tfs →
      ((mainLoop net tfs acc).2).isSome = true := by
  intro tfs
  induction tfs with
  | nil => intro acc hmem; simp at hmem
  | cons p rest ih =>
    obtain ⟨tf', lb'⟩ := p
    intro acc hmem
    rcases List.mem_cons.mp hmem with h1 | h2
    · obtain ⟨rfl, rfl⟩ : tf' = tf ∧ lb' = lb := by
        exact ⟨congrArg Prod.fst h1.symm, congrArg Prod.snd h1.symm⟩
      simp only [mainLoop]
      rw [fetch_frame_page_error hp]
      simp
    · simp only [mainLoop]
      split
      · simp
      · split
        · simp
        · split
          · exact ih _ h2
          · exact ih _ h2

/-! ### Claim C7 -/

/-- C7: when a required configuration parameter (`GIST_ID` or `GIST_TOKEN`)
is absent, the run aborts with a `KeyError` diagnostic naming the missing
parameter, and its network trace is empty — no candle fetch, macro fetch, or
sink request is issued. -/
theorem C7_config_missing_aborts_before_io (cfg : Config) (net : Net)
    (tfs : List (String × Nat))
    (habs : cfg.gistId = none ∨ cfg.gistToken = none) :
    (runMain cfg net tfs).2 = [] ∧
    ∃ m, (runMain cfg net tfs).1 = Except.error m ∧
      (m = "KeyError: GIST_ID" ∨ m = "KeyError: GIST_TOKEN") := by
  rcases habs with hi | ht
  · unfold runMain
    rw [hi]
    exact ⟨rfl, _, rfl, Or.inl rfl⟩
  · unfold runMain
    cases hg : cfg.gistId with
    | none => exact ⟨rfl, _, rfl, Or.inl rfl⟩
    | some g =>
      rw [ht]
      exact ⟨rfl, _, rfl, Or.inr rfl⟩

/-- A network oracle used in concrete witness runs: a single one-row page
then an empty page per timeframe, all macro data available, push accepted. -/
def netHappy : Net where
  nowMs := 1700000000000
  page := fun _ c _ => if c = 1700000000000
    then Except.ok [⟨1699999940000, F.num 2, F.num 3, F.num 4, F.num 1, F.num 5⟩]
    else Except.ok []
  indRaw := fun _ => [("ema20", Val.num 2), ("rsi14", Val.nan)]
  btcPage := fun _ _ => Except.ok []
  corrVal := Val.num 1
  fundingNow := Except.ok ⟨some (1 / 10000)⟩
  fundingHist := Except.ok [2 / 10000]
  oi := Except.ok ⟨some 1000, some 800⟩
  ob := Except.ok ⟨some [(1, 2)], some [(1, 3)]⟩
  pushOk := true

/-- A complete configuration (both required variables present). -/
def cfgFull : Config := ⟨some "gid", some "tok", none, none⟩

/-- C7, witness: a run with `GIST_ID` absent issues no network call and fails
with the `KeyError` diagnostic. -/
theorem C7_witness :
    (runMain ⟨none, some "tok", none, none⟩ netHappy [("1m", 1)]).2 = [] ∧
    ∃ m, (runMain ⟨none, some "tok", none, none⟩ netHappy [("1m", 1)]).1
        = Except.error m ∧
      (m = "KeyError: GIST_ID" ∨ m = "KeyError: GIST_TOKEN") :=
  C7_config_missing_aborts_before_io ⟨none, some "tok", none, none⟩ netHappy
    [("1m", 1)] (Or.inl rfl)

/-! ### Claim C6 -/

/-- C6: (a) when every attempt fails with a transient HTTP error, `_get`
makes exactly its fixed bound of 3 attempts, sleeps the backoff delays
1 s, 2 s, 4 s, and then fails with a `RuntimeError`; (b) a candle fetch whose
page requests keep failing aborts the whole run with an error and the Gist
PATCH is never issued (no partial snapshot is published). -/
theorem C6_retry_bound_then_abort :
    (∀ oracle : Nat → HttpTry,
      (∀ i, ∃ m, tryOutcome (oracle i) = Except.error m) →
        (_get oracle).attempts = 3 ∧ (_get oracle).sleeps = [1, 2, 4] ∧
        ∃ m, (_get oracle).result = Except.error m) ∧
    (∀ (cfg : Config) (net : Net) (tfs : List (String × Nat)) (tf : String)
        (lb : Nat) (em : String), (tf, lb) ∈ tfs →
      (∀ c l, net.page tf c l = Except.error em) →
        (∃ m, (runMain cfg net tfs).1 = Except.error m) ∧
        Act.push ∉ (runMain cfg net tfs).2) := by
  constructor
  · intro oracle hfail
    obtain ⟨m0, h0⟩ := hfail 0
    obtain ⟨m1, h1⟩ := hfail 1
    obtain ⟨m2, h2⟩ := hfail 2
    refine ⟨?_, ?_, ?_⟩
    · simp [_get, getAux, h0, h1, h2]
    · simp [_get, getAux, h0, h1, h2]
      norm_num
    · simp [_get, getAux, h0, h1, h2]
  · intro cfg net tfs tf lb em hmem hp
    unfold runMain
    cases hg : cfg.gistId with
    | none => exact ⟨⟨_, rfl⟩, by simp⟩
    | some g =>
      cases ht : cfg.gistToken with
      | none => exact ⟨⟨_, rfl⟩, by simp⟩
      | some t =>
        have hsome := mainLoop_fail hp tfs ⟨[], [], none, []⟩ hmem
        have hnp := mainLoop_no_push net tfs ⟨[], [], none, []⟩ (by simp)
        rcases hml : mainLoop net tfs ⟨[], [], none, []⟩ with ⟨acc, opt⟩
        rw [hml] at hsome hnp
        cases opt with
        | none => simp at hsome
        | some e =>
          exact ⟨⟨e, rfl⟩, hnp⟩

/-- C6, witness: a concretely always-failing oracle makes 3 attempts with
backoff 1, 2, 4 and fails, and a run whose candle pages always fail errors
out without pushing. -/
theorem C6_witness :
    ((_get fun _ => HttpTry.netError "ReadTimeout").attempts = 3 ∧
     (_get fun _ => HttpTry.netError "ReadTimeout").sleeps = [1, 2, 4] ∧
     ∃ m, (_get fun _ => HttpTry.netError "ReadTimeout").result = Except.error m) ∧
    ((∃ m, (runMain cfgFull
        { netHappy with page := fun _ _ _ => Except.error "KuCoin API keeps failing: 503" }
        [("1m", 1)]).1 = Except.error m) ∧
     Act.push ∉ (runMain cfgFull
        { netHappy with page := fun _ _ _ => Except.error "KuCoin API keeps failing: 503" }
        [("1m", 1)]).2) :=
  ⟨C6_retry_bound_then_abort.1 _ (fun _ => ⟨"ReadTimeout", rfl⟩),
   C6_retry_bound_then_abort.2 cfgFull _ _ "1m" 1 "KuCoin API keeps failing: 503"
     (List.mem_singleton.mpr rfl) (fun _ _ => rfl)⟩

/-! ### Claim C1 -/

/-- Appending a non-push action preserves the absence of a push. -/
theorem push_notin_append {tr : List Act} {a : Act} (h : Act.push ∉ tr)
    (hne : Act.push ≠ a) : Act.push ∉ tr ++ [a] := by
  intro hm
  rcases List.mem_append.mp hm with h1 | h2
  · exact h h1
  · exact hne (List.mem_singleton.mp h2)

/-- A run identical to the happy one except that the funding-rate fetch
raises after exhausting its retries. -/
def netFundFail : Net := { netHappy with fundingNow := Except.error "ReadTimeout" }

/-- C1, counterexample: a concrete run in which the candle fetch succeeds but
the funding-rate fetch fails.  The failure is NOT caught and NOT converted to
a null field: the run ends with the uncaught error, its network trace stops
at the funding fetch, and the snapshot is never published. -/
theorem C1_cex :
    (runMain cfgFull netFundFail [("1m", 1)]).1 = Except.error "ReadTimeout" ∧
    (runMain cfgFull netFundFail [("1m", 1)]).2
      = [Act.candleFetch "1m", Act.fundingFetch] ∧
    Act.push ∉ (runMain cfgFull netFundFail [("1m", 1)]).2 :=
  ⟨rfl, rfl, by decide⟩

/-- C1 (amended): a failure of any macro-data fetch (funding rate, open
interest, or order-book depth) is NOT caught: it propagates as an uncaught
exception, the run aborts with an error, and the snapshot is never published
— exactly as for candle-source and sink failures.  (The only isolated fetch
is the BTC-correlation one.) -/
theorem C1_macro_failure_aborts (cfg : Config) (net : Net)
    (tfs : List (String × Nat))
    (hmac : (∃ m, net.fundingNow = Except.error m) ∨
            (∃ m, net.fundingHist = Except.error m) ∨
            (∃ m, net.oi = Except.error m) ∨
            (∃ m, net.ob = Except.error m)) :
    (∃ m, (runMain cfg net tfs).1 = Except.error m) ∧
    Act.push ∉ (runMain cfg net tfs).2 := by
  unfold runMain
  cases hg : cfg.gistId with
  | none => exact ⟨⟨_, rfl⟩, by simp⟩
  | some g =>
    cases ht : cfg.gistToken with
    | none => exact ⟨⟨_, rfl⟩, by simp⟩
    | some t =>
      have hnp := mainLoop_no_push net tfs ⟨[], [], none, []⟩ (by simp)
      rcases hml : mainLoop net tfs ⟨[], [], none, []⟩ with ⟨acc, opt⟩
      rw [hml] at hnp
      cases opt with
      | some e => exact ⟨⟨e, rfl⟩, hnp⟩
      | none =>
        cases hfn : net.fundingNow with
        | error m => exact ⟨⟨m, rfl⟩, push_notin_append hnp (by decide)⟩
        | ok fn =>
          cases hfh : net.fundingHist with
          | error m => exact ⟨⟨m, rfl⟩, push_notin_append hnp (by decide)⟩
          | ok fh =>
            cases hoi : net.oi with
            | error m =>
              exact ⟨⟨m, rfl⟩,
                push_notin_append (push_notin_append hnp (by decide)) (by decide)⟩
            | ok oiR =>
              cases hob : net.ob with
              | error m =>
                exact ⟨⟨m, rfl⟩,
                  push_notin_append
                    (push_notin_append (push_notin_append hnp (by decide)) (by decide))
                    (by decide)⟩
              | ok obR =>
                rcases hmac with ⟨m, hm⟩ | ⟨m, hm⟩ | ⟨m, hm⟩ | ⟨m, hm⟩ <;>
                  simp_all

/-- C1, witness: the amended theorem applied to the concrete failing-funding
run. -/
theorem C1_witness :
    (∃ m, (runMain cfgFull netFundFail [("1m", 1)]).1 = Except.error m) ∧
    Act.push ∉ (runMain cfgFull netFundFail [("1m", 1)]).2 :=
  C1_macro_failure_aborts cfgFull netFundFail [("1m", 1)]
    (Or.inl ⟨"ReadTimeout", rfl⟩)

/-- One-step unfolding of the pagination loop at positive fuel. -/
theorem paginate_succ (page : Int → Nat → Except String (List Row)) (tf : String)
    (need fuel : Nat) (endMs : Int) (raw : List Row) :
    paginate page tf need (fuel + 1) endMs raw =
      if raw.length < need then
        match page endMs (min MAX_LIMIT (need - raw.length)) with
        | Except.error e => Except.error e
        | Except.ok [] => Except.ok raw
        | Except.ok (b :: bs) =>
          paginate page tf need fuel ((bs.getLastD b).ts - msPerBar tf)
            (raw ++ b :: bs)
      else Except.ok raw := rfl

/-! ### Claim C3 -/

/-- C3: if the candle source returns zero rows on the first page, pagination
ends without error, the resulting Series has length 0 and the
insufficient-history warning is reported; the run then aborts (the
`.iloc[-1]` indicator lookups raise `IndexError` on the empty frame) and the
snapshot publication is never attempted. -/
theorem C3_zero_rows_first_page (cfg : Config) (net : Net) (tf : String) (lb : Nat)
    (g t : String) (hg : cfg.gistId = some g) (ht : cfg.gistToken = some t)
    (hpage : net.page tf net.nowMs (min MAX_LIMIT (lb + WARMUP)) = Except.ok []) :
    fetch_frame (net.page tf) tf lb net.nowMs = Except.ok ⟨[], true⟩ ∧
    (∃ m, (runMain cfg net [(tf, lb)]).1 = Except.error m) ∧
    Act.push ∉ (runMain cfg net [(tf, lb)]).2 := by
  have hlt : ([] : List Row).length < lb + WARMUP := by
    show 0 < lb + 250
    omega
  have h1 : paginate (net.page tf) tf (lb + WARMUP) (lb + WARMUP + 1) net.nowMs []
      = Except.ok [] := by
    rw [paginate_succ, if_pos hlt]
    simp only [List.length_nil, Nat.sub_zero]
    rw [hpage]
  have hff : fetch_frame (net.page tf) tf lb net.nowMs = Except.ok ⟨[], true⟩ := by
    unfold fetch_frame
    rw [h1]
    have hdec : (decide (([] : List Row).length < lb + WARMUP)) = true :=
      decide_eq_true hlt
    show (Except.ok
        (FrameResult.mk (assemble lb [])
          (decide (([] : List Row).length < lb + WARMUP))) : Except String FrameResult)
      = Except.ok (FrameResult.mk [] true)
    rw [hdec, show assemble lb ([] : List Row) = [] by
      simp [assemble, dedupSort, sortTs, dropDupTs]]
  have hrun : runMain cfg net [(tf, lb)]
      = (Except.error "IndexError: single positional indexer is out-of-bounds",
         [Act.candleFetch tf]) := by
    unfold runMain
    rw [hg, ht]
    simp only [mainLoop, hff]
    rfl
  exact ⟨hff,
    ⟨"IndexError: single positional indexer is out-of-bounds", by rw [hrun]⟩,
    by rw [hrun]; simp⟩

/-- A run whose candle source has no history at all: every page is empty. -/
def netEmptyPage : Net := { netHappy with page := fun _ _ _ => Except.ok [] }

/-- C3, witness: the theorem applied to a concrete run with an empty first
page. -/
theorem C3_witness :
    fetch_frame (netEmptyPage.page "1m") "1m" 1 netEmptyPage.nowMs
      = Except.ok ⟨[], true⟩ ∧
    (∃ m, (runMain cfgFull netEmptyPage [("1m", 1)]).1 = Except.error m) ∧
    Act.push ∉ (runMain cfgFull netEmptyPage [("1m", 1)]).2 :=
  C3_zero_rows_first_page cfgFull netEmptyPage "1m" 1 "gid" "tok" rfl rfl rfl

/-! ### Claim C4 -/

/-- Cleaning a candle float never leaves NaN/Infinity. -/
theorem hasBad_clean_fVal (x : F) : hasBad (_clean (fVal x)) = false := by
  cases x <;> simp [fVal, _clean, hasBad]

/-- Cleaning a SCALAR value never leaves NaN/Infinity. -/
theorem hasBad_clean_scalar {v : Val} (hs : isScalar v = true) :
    hasBad (_clean v) = false := by
  cases v <;> simp_all [isScalar, _clean, hasBad]

/-- A serialized candle record contains no NaN/Infinity. -/
theorem hasBad_barRecord (r : Row) : hasBad (barRecord r) = false := by
  simp [barRecord, barFields, hasBad, hasBadF, hasBad_clean_fVal]

/-- The serialized bars array contains no NaN/Infinity. -/
theorem hasBadL_map_barRecord (df : List Row) :
    hasBadL (df.map barRecord) = false := by
  induction df with
  | nil => simp [hasBadL]
  | cons r rs ih => simp [hasBadL, hasBad_barRecord, ih]

/-- The top-level `_clean` sweep leaves no NaN/Infinity when every raw
indicator value is a scalar. -/
theorem hasBadF_clean_map (rawInd : List (String × Val))
    (hs : ∀ kv ∈ rawInd, isScalar kv.2 = true) :
    hasBadF (rawInd.map fun kv => (kv.1, _clean kv.2)) = false := by
  induction rawInd with
  | nil => simp [hasBadF]
  | cons kv rest ih =>
    obtain ⟨k, v⟩ := kv
    simp only [List.map_cons, hasBadF]
    rw [hasBad_clean_scalar (hs (k, v) (List.mem_cons_self _ _)),
        ih fun kv hkv => hs kv (List.mem_cons_of_mem _ hkv)]
    rfl

/-- C4, counterexample: a nested indicator dict (as `pandas_ta` produces for
`macd`/`bbands`) whose inner value is NaN.  `calc_indicators` returns it
UNCHANGED — `_clean` only touches top-level values, and `math.isnan(dict)`
raises a `TypeError` that is suppressed — so a NaN survives into the payload
and the `allow_nan=False` encoder now fails instead of serializing: the
claim that every NaN is replaced by null before encoding is false. -/
theorem C4_cex :
    calc_indicators [("macd", Val.dict [("hist", Val.nan)])]
        [⟨0, F.num 1, F.num 1, F.num 1, F.num 1, F.num 1⟩]
      = Except.ok [("macd", Val.dict [("hist", Val.nan)])] ∧
    hasBad (Val.dict [("macd", Val.dict [("hist", Val.nan)])]) = true ∧
    dumpsOk (Val.dict [("macd", Val.dict [("hist", Val.nan)])]) = false := by
  refine ⟨rfl, ?_, ?_⟩ <;> simp [hasBad, hasBadF, dumpsOk]

/-- C4 (amended): `_clean` is applied to every candle-bar field and to every
TOP-LEVEL indicator value, so whenever the raw indicator values are scalars
the enriched-series payload contains no NaN/Infinity and
`json.dumps(..., allow_nan=False)` serializes it to valid JSON with no `NaN`
token; the encoder is strict, so a NaN that survives inside a nested
indicator dict makes serialization raise rather than ever emitting a `NaN`
token. -/
theorem C4_cleaned_payload_serializes (df : List Row)
    (rawInd cl : List (String × Val))
    (hcl : calc_indicators rawInd df = Except.ok cl)
    (hs : ∀ kv ∈ rawInd, isScalar kv.2 = true) :
    hasBad (Val.dict cl) = false ∧
    hasBad (Val.arr (df.map barRecord)) = false ∧
    dumpsOk (Val.dict [("indicators", Val.dict cl),
                       ("bars", Val.arr (df.map barRecord))]) = true ∧
    (∀ v : Val, hasBad v = true → dumpsOk v = false) := by
  have hne : df.isEmpty = false := by
    cases hb : df.isEmpty
    · rfl
    · rw [calc_indicators, if_pos hb] at hcl
      exact absurd hcl (by simp)
  have hcl' : cl = rawInd.map fun kv => (kv.1, _clean kv.2) := by
    rw [calc_indicators, if_neg (by simp [hne])] at hcl
    exact (Except.ok.inj hcl).symm
  subst hcl'
  refine ⟨?_, ?_, ?_, ?_⟩
  · simp [hasBad, hasBadF_clean_map rawInd hs]
  · simp [hasBad, hasBadL_map_barRecord]
  · simp [dumpsOk, hasBad, hasBadF, hasBadL,
      hasBadF_clean_map rawInd hs, hasBadL_map_barRecord]
  · intro v hv
    simp [dumpsOk, hv]

/-- C4, witness: the amended theorem at a concrete degenerate input — a NaN
indicator value (as VWAP produces on all-zero volume) is nulled and the
payload serializes. -/
theorem C4_witness :
    calc_indicators [("vwap", Val.nan)]
        [⟨1, F.num 1, F.num 1, F.num 1, F.num 1, F.num 0⟩]
      = Except.ok [("vwap", Val.null)] ∧
    (hasBad (Val.dict [("vwap", Val.null)]) = false ∧
     hasBad (Val.arr ([(⟨1, F.num 1, F.num 1, F.num 1, F.num 1, F.num 0⟩ : Row)].map
        barRecord)) = false ∧
     dumpsOk (Val.dict [("indicators", Val.dict [("vwap", Val.null)]),
        ("bars", Val.arr ([(⟨1, F.num 1, F.num 1, F.num 1, F.num 1, F.num 0⟩ : Row)].map
          barRecord))]) = true ∧
     (∀ v : Val, hasBad v = true → dumpsOk v = false)) :=
  ⟨rfl, C4_cleaned_payload_serializes
    [⟨1, F.num 1, F.num 1, F.num 1, F.num 1, F.num 0⟩]
    [("vwap", Val.nan)] [("vwap", Val.null)] rfl (by decide)⟩

/-! ### Claim C9 -/

/-- A cleaned candle float is never a string. -/
theorem isStr_clean_fVal (x : F) : isStr (_clean (fVal x)) = false := by
  cases x <;> rfl

/-- A concrete candle row used for C9. -/
def rowC9 : Row := ⟨1700000000000, F.num 2, F.num 3, F.num 4, F.num 1, F.num 5⟩

/-- C9, counterexample: in the serialized snapshot a candle row's timestamp
appears ONLY as the epoch-milliseconds integer `ts`: the record built at
lines 325–328 contains no string field at all, so no ISO-8601 string is
emitted per row, contradicting the claim. -/
theorem C9_cex :
    (barFields rowC9).head? = some ("ts", Val.int 1700000000000) ∧
    (∀ kv ∈ barFields rowC9, isStr kv.2 = false) ∧
    ¬ ∃ kv ∈ barFields rowC9, isStr kv.2 = true :=
  ⟨rfl, by decide, by decide⟩

/-- C9 (amended): every candle row's timestamp is emitted only as an
epoch-milliseconds integer (the first field `ts` of the record), and no field
of the record is a string; the ISO-8601 UTC string produced by `_iso`
(`YYYY-MM-DDTHH:MM:SSZ`) is used only for the snapshot's top-level
`generated_at` field. -/
theorem C9_ts_epoch_only (r : Row) (nowMs : Int) (symbol : String)
    (candles inds : List (String × Val)) (btc : Option Val) (fv : Val)
    (oiR : OiResp) (obR : ObResp) :
    (barFields r).head? = some ("ts", Val.int r.ts) ∧
    (∀ kv ∈ barFields r, isStr kv.2 = false) ∧
    ∃ rest, buildPayload nowMs symbol candles inds btc fv oiR obR
        = Val.dict (("generated_at", Val.str (_iso nowMs)) :: rest) := by
  refine ⟨rfl, ?_, ?_⟩
  · intro kv hkv
    simp only [barFields, List.mem_cons, List.not_mem_nil, or_false] at hkv
    rcases hkv with h | h | h | h | h | h <;> subst h <;>
      first
        | rfl
        | exact isStr_clean_fVal _
  · cases btc with
    | none => exact ⟨_, rfl⟩
    | some b => exact ⟨_, rfl⟩
